import Mathlib

/-!
# Heimdall network-connectivity watcher: a shallow embedding

This file embeds the monitor core of the heimdall repository
(`src/heimdall/monitor.py`, `src/heimdall/database.py`,
`src/heimdall/config.py`) into Lean 4 and proves the testable
properties of its specification against that embedding.

Modelling conventions:
* timestamps (`time.time()` floats) are modelled as integers `ℤ`:
  every claim uses timestamps only through ordering, equality and
  subtraction, never through division;
* the SQLite `downtime` and `status_log` tables are Lean lists of rows,
  in insertion order, together with the next `AUTOINCREMENT` id;
* SQL queries (`WHERE`, `ORDER BY ... LIMIT`) become list filters,
  sorts and selections over those lists;
* the monitor loop `_run_loop` becomes a step function on an explicit
  state (the `_current_status` dict, the `was_up` local, the database),
  folded over a finite sequence of probe results; each cycle's
  `time.time()` value is one larger than the previous cycle's, which
  models the strictly increasing wall clock across `time.sleep` calls;
* Python exceptions become `Except String`, and a `raise` before the
  commit point leaves the previously committed state in place.
-/

namespace Heimdall

/-- One row of the `downtime` table:
`downtime(id PK, started_at, ended_at NULLABLE, created_at)`. -/
structure DowntimeRow where
  id : ℕ
  started_at : ℤ
  ended_at : Option ℤ
  created_at : ℤ
deriving DecidableEq, Repr

/-- One row of the `status_log` table: `status_log(id PK, at, up)`.
The timestamp column is called `at` in the schema; `at` is reserved in
Lean so the field is named `atTime`. -/
structure StatusSample where
  atTime : ℤ
  up : Bool
deriving DecidableEq, Repr

/-- The SQLite database file: both tables in insertion order, plus the
next value of the `downtime` AUTOINCREMENT id (SQLite starts at 1). -/
structure DB where
  downtime : List DowntimeRow
  status_log : List StatusSample
  next_id : ℕ
deriving DecidableEq, Repr

/-- The empty, freshly `init_db`-initialised database. -/
def DB.empty : DB := ⟨[], [], 1⟩

/-- Number of open downtime rows (`ended_at IS NULL`). -/
def openCount (rows : List DowntimeRow) : ℕ :=
  (rows.filter (fun r => r.ended_at.isNone)).length

/-- Number of closed downtime rows (`ended_at IS NOT NULL`). -/
def closedCount (rows : List DowntimeRow) : ℕ :=
  (rows.filter (fun r => r.ended_at.isSome)).length

/-- `record_down()`: `INSERT INTO downtime (started_at, ended_at,
created_at) VALUES (now, NULL, now)`. -/
def record_down (db : DB) (now : ℤ) : DB :=
  { db with
    downtime := db.downtime ++ [⟨db.next_id, now, none, now⟩]
    next_id := db.next_id + 1 }

/-- The row a `SELECT ... ORDER BY started_at DESC LIMIT 1` returns:
a row whose `started_at` is maximal in the list (`none` on the empty
list). SQLite leaves the choice among ties unspecified; this model
keeps the earliest row with the maximal key. -/
def argmaxStarted : List DowntimeRow → Option DowntimeRow
  | [] => none
  | r :: rest =>
    match argmaxStarted rest with
    | none => some r
    | some b => if r.started_at < b.started_at then some b else some r

/-- The target row of `record_up`'s
`SELECT id FROM downtime WHERE ended_at IS NULL ORDER BY started_at DESC LIMIT 1`. -/
def pickOpen (rows : List DowntimeRow) : Option DowntimeRow :=
  argmaxStarted (rows.filter (fun r => r.ended_at.isNone))

/-- `record_up()`: find the most recent open row, and if one exists run
`UPDATE downtime SET ended_at = now WHERE id = ?` on its id; otherwise
do nothing. -/
def record_up (db : DB) (now : ℤ) : DB :=
  match pickOpen db.downtime with
  | none => db
  | some r =>
    { db with
      downtime := db.downtime.map
        (fun x => if x.id = r.id then { x with ended_at := some now } else x) }

/-- `log_status(up)`: `INSERT INTO status_log (at, up) VALUES (now, up)`. -/
def log_status (db : DB) (up : Bool) (now : ℤ) : DB :=
  { db with status_log := db.status_log ++ [⟨now, up⟩] }

/-- The `ORDER BY started_at DESC` comparison used by the downtime
queries: row `a` sorts before row `b` when `b.started_at ≤ a.started_at`. -/
def startedDesc (a b : DowntimeRow) : Prop :=
  b.started_at ≤ a.started_at

instance : DecidableRel startedDesc := fun a b =>
  inferInstanceAs (Decidable (b.started_at ≤ a.started_at))

instance : IsTotal DowntimeRow startedDesc :=
  ⟨fun a b => le_total b.started_at a.started_at⟩

instance : IsTrans DowntimeRow startedDesc :=
  ⟨fun _ _ _ hab hbc => le_trans hbc hab⟩

/-- `get_recent_downtimes(limit)`:
`SELECT id, started_at, ended_at, created_at FROM downtime WHERE
ended_at IS NOT NULL ORDER BY started_at DESC LIMIT ?`. -/
def get_recent_downtimes (db : DB) (limit : ℕ) : List DowntimeRow :=
  (List.insertionSort startedDesc
    (db.downtime.filter (fun r => r.ended_at.isSome))).take limit

/-- The shape of a `get_current_downtime` result: the query selects only
`id, started_at, created_at`, so the returned record has no `ended_at`
field at all (unlike the four-column rows of `get_recent_downtimes`). -/
structure OpenDowntimeView where
  id : ℕ
  started_at : ℤ
  created_at : ℤ
deriving DecidableEq, Repr

/-- `get_current_downtime()`:
`SELECT id, started_at, created_at FROM downtime WHERE ended_at IS NULL
ORDER BY started_at DESC LIMIT 1`, or `None` when no row matches. -/
def get_current_downtime (db : DB) : Option OpenDowntimeView :=
  (pickOpen db.downtime).map (fun r => ⟨r.id, r.started_at, r.created_at⟩)

/-- The dictionary `get_uptime_stats` returns. `uptime_pct` and
`downtime_seconds` are `None` exactly when the sample window is empty. -/
structure UptimeStats where
  uptime_pct : Option ℚ
  samples : ℕ
  downtime_seconds : Option ℤ
deriving DecidableEq, Repr

/-- Round-half-to-even to an integer, the rounding Python's builtin
`round` uses on exact halves. -/
def roundHalfEven (q : ℚ) : ℤ :=
  if q - ⌊q⌋ < 1 / 2 then ⌊q⌋
  else if 1 / 2 < q - ⌊q⌋ then ⌊q⌋ + 1
  else if Even ⌊q⌋ then ⌊q⌋ else ⌊q⌋ + 1

/-- Python's `round(q, 2)`: round to two decimal places. -/
def round2 (q : ℚ) : ℚ := (roundHalfEven (q * 100) : ℚ) / 100

/-- `get_uptime_stats()`: aggregate the `status_log` rows with
`at >= now - 24*3600`; `interval` is the current `config.POLL_INTERVAL`. -/
def get_uptime_stats (db : DB) (now : ℤ) (interval : ℤ) : UptimeStats :=
  let rows := db.status_log.filter (fun s => now - 24 * 3600 ≤ s.atTime)
  if rows.isEmpty then ⟨none, 0, none⟩
  else
    let total : ℕ := rows.length
    let up_count : ℕ := (rows.filter (fun s => s.up)).length
    let downtime_seconds : ℤ := ((total : ℤ) - (up_count : ℤ)) * interval
    let uptime_pct : ℚ := (up_count : ℚ) / (total : ℚ) * 100
    ⟨some (round2 uptime_pct), total, some downtime_seconds⟩

/-- `get_last_status()`: most recent `status_log` row
(`ORDER BY at DESC LIMIT 1`); in the model the log is kept in insertion
order and timestamps are strictly increasing, so this is the last
element. -/
def get_last_status (db : DB) : Option StatusSample :=
  db.status_log.getLast?

/-- The spec's worked statistics example: ten in-window samples taken
one second apart, seven up followed by three down. -/
def exampleStatusLog : List StatusSample :=
  [⟨99990, true⟩, ⟨99991, true⟩, ⟨99992, true⟩, ⟨99993, true⟩,
   ⟨99994, true⟩, ⟨99995, true⟩, ⟨99996, true⟩, ⟨99997, false⟩,
   ⟨99998, false⟩, ⟨99999, false⟩]

/-! ## The probe (`monitor._ping_host`) -/

/-- What happened to the single `subprocess.run(["ping", ...])` call:
it raised `subprocess.TimeoutExpired` (the hard `timeout_seconds + 2`
wait expired), raised `FileNotFoundError` (the ping binary could not be
spawned), raised some other `Exception` (e.g. a resolution failure
surfacing as an error), or completed with an exit code and captured
output. -/
inductive ProbeOutcome where
  | timeoutExpired
  | fileNotFound
  | otherException
  | completed (returncode : ℤ) (stdout stderr : String)
deriving DecidableEq, Repr

/-- Python's `str.lower()` on the character sequence of a string. -/
def lowerChars (s : String) : List Char :=
  s.data.map Char.toLower

/-- `"ttl=" in output`: Python substring containment. -/
def containsTTL (output : List Char) : Bool :=
  decide ("ttl=".data <:+: output)

/-- `_ping_host(host, timeout)`: the `except` clause catches every
exception and returns `False`; on completion, Windows requires a zero
exit code *and* an echo-reply marker `ttl=` in the lowercased
`stdout + "\n" + stderr`, while other platforms accept any zero exit
code. -/
def ping_host (isWindows : Bool) (outcome : ProbeOutcome) : Bool :=
  match outcome with
  | .timeoutExpired => false
  | .fileNotFound => false
  | .otherException => false
  | .completed returncode stdout stderr =>
    if isWindows then
      let output := lowerChars (stdout ++ "\n" ++ stderr)
      decide (returncode = 0) && containsTTL output
    else
      decide (returncode = 0)

/-! ## The multi-target resolver (`monitor._is_internet_up`) -/

/-- `_is_internet_up(targets, timeout)`: probe each target in order and
return `True` at the first success, `False` after the list is
exhausted. `probe` abstracts `_ping_host`'s verdict for each host in
this cycle. -/
def is_internet_up (probe : String → Bool) : List String → Bool
  | [] => false
  | t :: ts => if probe t then true else is_internet_up probe ts

/-- The targets the `for` loop of `_is_internet_up` actually probes, in
order: the loop body runs for each target up to and including the first
success, and for every target when all fail. -/
def probedTargets (probe : String → Bool) : List String → List String
  | [] => []
  | t :: ts => if probe t then [t] else t :: probedTargets probe ts

/-! ## The monitor loop (`monitor._run_loop`) -/

/-- The loop state: the `_current_status` dict (`up`, `last_check`,
`last_change`, all initially `None`), the `was_up` local of
`_run_loop`, and the database. -/
structure MonitorState where
  status_up : Option Bool
  last_check : Option ℤ
  last_change : Option ℤ
  was_up : Option Bool
  db : DB
deriving DecidableEq, Repr

/-- State at `start_monitor()`: empty status dict, `was_up = None`,
freshly initialised database. -/
def initialState : MonitorState :=
  ⟨none, none, none, none, DB.empty⟩

/-- One iteration of the `while True` body of `_run_loop`, given this
cycle's resolver verdict `up` and clock value `now`: set
`_current_status["up"]` and `["last_check"]`; if `was_up` is not `None`
and differs from `up`, set `["last_change"]` and call `record_up` or
`record_down`; set `was_up = up`; append a `log_status` sample. -/
def runLoopCycle (st : MonitorState) (up : Bool) (now : ℤ) : MonitorState :=
  let st1 := { st with status_up := some up, last_check := some now }
  let st2 :=
    match st.was_up with
    | none => st1
    | some w =>
      if w ≠ up then
        { st1 with
          last_change := some now
          db := if up then record_up st1.db now else record_down st1.db now }
      else st1
  { st2 with was_up := some up, db := log_status st2.db up now }

/-- Fold the loop body over a finite sequence of resolver verdicts; each
cycle's `time.time()` is one later than the previous cycle's. -/
def runLoop (st : MonitorState) (results : List Bool) (now : ℤ) : MonitorState :=
  match results with
  | [] => st
  | r :: rest => runLoop (runLoopCycle st r now) rest (now + 1)

/-- The monitor processing a probe-result sequence from scratch: empty
downtime table, `was_up = None`. -/
def runMonitor (results : List Bool) : MonitorState :=
  runLoop initialState results 0

/-- Number of down→up changes the loop observes in `results` when the
previous cycle's result was `prev` (`none` at startup): adjacent pairs
`(false, true)`, plus the leading pair when `prev = some false`. -/
def downUps (prev : Option Bool) : List Bool → ℕ
  | [] => 0
  | r :: rest =>
    (if prev = some false ∧ r = true then 1 else 0) + downUps (some r) rest

/-! ## Runtime configuration (`config.py`)

The mutable module globals `PING_TARGETS`, `POLL_INTERVAL` and
`PING_TIMEOUT` become an explicit `ConfigState`; `update_runtime_config`
becomes a function from the committed state and the JSON payload to
`Except String ConfigState` — a `raise` happens before any global is
assigned, so an error leaves the committed state as it was. Settings
file persistence (`_write_settings_file`) is file I/O outside the
model. -/

/-- The committed runtime configuration (the module globals). -/
structure ConfigState where
  PING_TARGETS : List String
  POLL_INTERVAL : ℤ
  PING_TIMEOUT : ℤ
deriving DecidableEq, Repr

deriving instance DecidableEq for Except

/-- `_coerce_positive_int(value, name, minimum, maximum)`. The payload
value is modelled as already an integer (`int(value)` succeeded); the
range checks are the source's. -/
def _coerce_positive_int (value : ℤ) (name : String) (minimum : ℤ)
    (maximum : Option ℤ) : Except String ℤ :=
  if value < minimum then .error (name ++ " must be >= " ++ toString minimum ++ ".")
  else
    match maximum with
    | some mx =>
      if value > mx then .error (name ++ " must be <= " ++ toString mx ++ ".")
      else .ok value
    | none => .ok value

/-- `_normalize_target(value)`: strip, reject empty and over-long
hosts. -/
def _normalize_target (value : String) : Except String String :=
  let target := value.trim
  if target = "" then .error "ping_target cannot be empty."
  else if target.length > 255 then .error "ping_target is too long."
  else .ok target

/-- A `ping_targets` payload value: a comma-separated string or a list
of strings (any other JSON type is rejected by the source with a type
error and is outside this typed model). -/
inductive TargetsValue where
  | str (s : String)
  | list (l : List String)
deriving DecidableEq, Repr

/-- Order-preserving de-duplication, keeping the first occurrence
(Python's `list(dict.fromkeys(normalized))`). -/
def dedupFirst : List String → List String
  | [] => []
  | x :: xs => x :: dedupFirst (xs.filter (fun y => y ≠ x))
termination_by l => l.length
decreasing_by
  simp only [List.length_cons]
  exact Nat.lt_succ_of_le (List.length_filter_le _ _)

/-- `_normalize_targets(value)`: split/strip, drop empties, validate
each target, de-duplicate preserving order, reject an empty result. -/
def _normalize_targets (value : TargetsValue) : Except String (List String) := do
  let raw_items :=
    match value with
    | .str s => (s.splitOn ",").map String.trim
    | .list l => l.map String.trim
  let normalized ← (raw_items.filter (fun item => item ≠ "")).mapM _normalize_target
  let deduped := dedupFirst normalized
  if deduped = [] then
    .error "ping_targets must include at least one target."
  else
    pure deduped

/-- The JSON body of a config-update request: each supported key either
absent or present with its value. -/
structure Payload where
  ping_targets : Option TargetsValue := none
  ping_target : Option String := none
  poll_interval : Option ℤ := none
  ping_timeout : Option ℤ := none
deriving DecidableEq, Repr

/-- The `normalized` dict `_validate_update` builds. -/
structure NormalizedUpdate where
  PING_TARGETS : Option (List String) := none
  POLL_INTERVAL : Option ℤ := none
  PING_TIMEOUT : Option ℤ := none
deriving DecidableEq, Repr

/-- `_validate_update(payload)`: normalize each supplied field
(`ping_target` overwriting `ping_targets`), cross-check
`ping_timeout > poll_interval` when both are supplied, and reject an
update that carries no supported field. -/
def _validate_update (p : Payload) : Except String NormalizedUpdate := do
  let n0 : NormalizedUpdate := {}
  let n1 ←
    match p.ping_targets with
    | some v => do
      pure { n0 with PING_TARGETS := some (← _normalize_targets v) }
    | none => pure n0
  let n2 ←
    match p.ping_target with
    | some v => do
      pure { n1 with PING_TARGETS := some [← _normalize_target v] }
    | none => pure n1
  let n3 ←
    match p.poll_interval with
    | some v => do
      pure { n2 with
        POLL_INTERVAL := some (← _coerce_positive_int v "poll_interval" 1 (some 3600)) }
    | none => pure n2
  let n4 ←
    match p.ping_timeout with
    | some v => do
      pure { n3 with
        PING_TIMEOUT := some (← _coerce_positive_int v "ping_timeout" 1 (some 60)) }
    | none => pure n3
  match n4.POLL_INTERVAL, n4.PING_TIMEOUT with
  | some i, some t =>
    if t > i then
      .error "ping_timeout cannot be greater than poll_interval."
    else pure ()
  | _, _ => pure ()
  if n4.PING_TARGETS = none ∧ n4.POLL_INTERVAL = none ∧ n4.PING_TIMEOUT = none then
    .error "No supported config fields provided."
  else
    pure n4

/-- `update_runtime_config(payload)`: validate, then compute the next
committed values (falling back to the current ones for absent fields),
re-check `next_timeout > next_interval` against the *resulting* pair,
and only then assign the globals. -/
def update_runtime_config (st : ConfigState) (p : Payload) :
    Except String ConfigState := do
  let normalized ← _validate_update p
  let next_targets := normalized.PING_TARGETS.getD st.PING_TARGETS
  let next_interval := normalized.POLL_INTERVAL.getD st.POLL_INTERVAL
  let next_timeout := normalized.PING_TIMEOUT.getD st.PING_TIMEOUT
  if next_timeout > next_interval then
    .error "ping_timeout cannot be greater than poll_interval."
  else
    pure ⟨next_targets, next_interval, next_timeout⟩

/-- The module globals after an `update_runtime_config` call: the new
state on success, the previously committed state when the call raised
(every assignment in the source happens after the last possible
`raise`). -/
def applyUpdate (st : ConfigState) (p : Payload) : ConfigState :=
  match update_runtime_config st p with
  | .ok st' => st'
  | .error _ => st

/-- The interval/timeout part of the module-initialisation tail of
`config.py`: range-coerce the stored or environment-supplied values,
then `if PING_TIMEOUT > POLL_INTERVAL: PING_TIMEOUT = min(PING_TIMEOUT,
POLL_INTERVAL)` — a silent clamp, not an error. -/
def initIntervalTimeout (rawInterval rawTimeout : ℤ) : Except String (ℤ × ℤ) := do
  let interval ← _coerce_positive_int rawInterval "poll_interval" 1 (some 3600)
  let timeoutV ← _coerce_positive_int rawTimeout "ping_timeout" 1 (some 60)
  pure (interval, if timeoutV > interval then min timeoutV interval else timeoutV)

/-! ## Helper lemmas about the downtime table -/

lemma argmaxStarted_eq_none {l : List DowntimeRow} :
    argmaxStarted l = none ↔ l = [] := by
  induction l with
  | nil => simp [argmaxStarted]
  | cons r rest ih =>
    simp only [argmaxStarted]
    constructor
    · intro h
      cases hrest : argmaxStarted rest with
      | none => simp [hrest] at h
      | some b =>
        rw [hrest] at h
        by_cases hc : r.started_at < b.started_at <;> simp [hc] at h
    · intro h; exact absurd h (List.cons_ne_nil r rest)

lemma argmaxStarted_mem {l : List DowntimeRow} {r : DowntimeRow}
    (h : argmaxStarted l = some r) : r ∈ l := by
  induction l with
  | nil => simp [argmaxStarted] at h
  | cons x rest ih =>
    simp only [argmaxStarted] at h
    cases hrest : argmaxStarted rest with
    | none =>
      rw [hrest] at h
      simp only [Option.some.injEq] at h
      simp [← h]
    | some b =>
      rw [hrest] at h
      by_cases hc : x.started_at < b.started_at
      · simp only [hc, if_pos] at h
        simp only [Option.some.injEq] at h
        exact List.mem_cons_of_mem x (ih (h ▸ hrest))
      · simp only [hc, if_neg, not_false_iff] at h
        simp only [Option.some.injEq] at h
        simp [← h]

lemma argmaxStarted_max {l : List DowntimeRow} :
    ∀ {r : DowntimeRow}, argmaxStarted l = some r →
      ∀ x ∈ l, x.started_at ≤ r.started_at := by
  induction l with
  | nil => intro r h; simp [argmaxStarted] at h
  | cons y rest ih =>
    intro r h x hx
    simp only [argmaxStarted] at h
    cases hrest : argmaxStarted rest with
    | none =>
      rw [hrest] at h
      simp only [Option.some.injEq] at h
      rcases List.mem_cons.mp hx with hxy | hxrest
      · exact le_of_eq (by rw [hxy, ← h])
      · exact absurd (argmaxStarted_eq_none.mp hrest ▸ hxrest) (List.not_mem_nil x)
    | some b =>
      rw [hrest] at h
      by_cases hc : y.started_at < b.started_at
      · simp only [hc, if_pos, Option.some.injEq] at h
        rcases List.mem_cons.mp hx with hxy | hxrest
        · exact hxy ▸ (h ▸ le_of_lt hc)
        · exact h ▸ ih hrest x hxrest
      · simp only [hc, if_neg, not_false_iff, Option.some.injEq] at h
        rcases List.mem_cons.mp hx with hxy | hxrest
        · exact le_of_eq (by rw [hxy, ← h])
        · exact le_trans (ih hrest x hxrest) (h ▸ le_of_not_lt hc)

lemma openCount_eq_zero_iff {l : List DowntimeRow} :
    openCount l = 0 ↔ ∀ x ∈ l, x.ended_at ≠ none := by
  simp only [openCount, List.length_eq_zero, List.filter_eq_nil_iff,
    Option.isNone_iff_eq_none]

lemma pickOpen_eq_none {l : List DowntimeRow} (h : openCount l = 0) :
    pickOpen l = none := by
  unfold pickOpen
  rw [argmaxStarted_eq_none]
  exact List.length_eq_zero.mp h

lemma pickOpen_spec {l : List DowntimeRow} (h : 0 < openCount l) :
    ∃ r, pickOpen l = some r ∧ r ∈ l ∧ r.ended_at = none ∧
      ∀ x ∈ l, x.ended_at = none → x.started_at ≤ r.started_at := by
  unfold pickOpen
  set f := l.filter (fun x => x.ended_at.isNone) with hf
  cases hm : argmaxStarted f with
  | none =>
    exfalso
    have : f = [] := argmaxStarted_eq_none.mp hm
    rw [openCount, ← hf, this] at h
    simp at h
  | some r =>
    refine ⟨r, rfl, ?_, ?_, ?_⟩
    · exact (List.mem_filter.mp (argmaxStarted_mem hm)).1
    · exact Option.isNone_iff_eq_none.mp (List.mem_filter.mp (argmaxStarted_mem hm)).2
    · intro x hx hxe
      exact argmaxStarted_max hm x
        (List.mem_filter.mpr ⟨hx, Option.isNone_iff_eq_none.mpr hxe⟩)

lemma openCount_add_closedCount (l : List DowntimeRow) :
    openCount l + closedCount l = l.length := by
  induction l with
  | nil => simp [openCount, closedCount]
  | cons x rest ih =>
    cases hx : x.ended_at with
    | none =>
      simp only [openCount, closedCount, List.filter_cons, hx] at ih ⊢
      simp only [Option.isNone_none, Option.isSome_none] at *
      simp only [if_pos, if_neg, Bool.false_eq_true, not_false_iff, List.length_cons]
      omega
    | some v =>
      simp only [openCount, closedCount, List.filter_cons, hx] at ih ⊢
      simp only [Option.isNone_some, Option.isSome_some] at *
      simp only [if_pos, if_neg, Bool.false_eq_true, not_false_iff, List.length_cons]
      omega

lemma record_down_openCount (db : DB) (now : ℤ) :
    openCount (record_down db now).downtime = openCount db.downtime + 1 := by
  simp [record_down, openCount, List.filter_append]

lemma record_down_closedCount (db : DB) (now : ℤ) :
    closedCount (record_down db now).downtime = closedCount db.downtime := by
  simp [record_down, closedCount, List.filter_append]

lemma record_up_noop {db : DB} (now : ℤ) (h : openCount db.downtime = 0) :
    record_up db now = db := by
  unfold record_up
  rw [pickOpen_eq_none h]

lemma record_up_counts {db : DB} (now : ℤ) (h : openCount db.downtime = 1) :
    openCount (record_up db now).downtime = 0 ∧
      closedCount (record_up db now).downtime = closedCount db.downtime + 1 := by
  obtain ⟨r, hpick, _, _, _⟩ := pickOpen_spec (l := db.downtime) (by omega)
  have hfil : db.downtime.filter (fun x => x.ended_at.isNone) = [r] := by
    obtain ⟨y, hy⟩ := List.length_eq_one.mp h
    have hrmem : r ∈ db.downtime.filter (fun x => x.ended_at.isNone) :=
      argmaxStarted_mem hpick
    rw [hy] at hrmem ⊢
    simp only [List.mem_singleton] at hrmem
    rw [hrmem]
  have hclosed : ∀ x ∈ db.downtime,
      ((fun x => if x.id = r.id then { x with ended_at := some now } else x) x).ended_at
        ≠ none := by
    intro x hx
    by_cases hid : x.id = r.id
    · simp [hid]
    · simp only [hid, if_neg, not_false_iff]
      intro hxe
      have : x ∈ db.downtime.filter (fun x => x.ended_at.isNone) :=
        List.mem_filter.mpr ⟨hx, by simp [hxe]⟩
      rw [hfil, List.mem_singleton] at this
      exact hid (by rw [this])
  have hopen0 : openCount (record_up db now).downtime = 0 := by
    unfold record_up
    rw [hpick]
    simp only [openCount]
    rw [List.length_eq_zero, List.filter_eq_nil_iff]
    intro a ha
    obtain ⟨x, hx, hax⟩ := List.mem_map.mp ha
    rw [← hax]
    simpa [Option.isNone_iff_eq_none] using hclosed x hx
  refine ⟨hopen0, ?_⟩
  have hlen : (record_up db now).downtime.length = db.downtime.length := by
    unfold record_up
    rw [hpick]
    simp
  have h1 := openCount_add_closedCount (record_up db now).downtime
  have h2 := openCount_add_closedCount db.downtime
  omega

/-! ## Helper lemmas about the monitor loop -/

@[simp] lemma log_status_downtime (db : DB) (up : Bool) (now : ℤ) :
    (log_status db up now).downtime = db.downtime := rfl

lemma runLoopCycle_initial {st : MonitorState} (h : st.was_up = none)
    (up : Bool) (now : ℤ) :
    runLoopCycle st up now =
      ⟨some up, some now, st.last_change, some up, log_status st.db up now⟩ := by
  simp [runLoopCycle, h]

lemma runLoopCycle_same {st : MonitorState} {up : Bool} (h : st.was_up = some up)
    (now : ℤ) :
    runLoopCycle st up now =
      ⟨some up, some now, st.last_change, some up, log_status st.db up now⟩ := by
  simp [runLoopCycle, h]

lemma runLoopCycle_up_down {st : MonitorState} (h : st.was_up = some true) (now : ℤ) :
    runLoopCycle st false now =
      ⟨some false, some now, some now, some false,
        log_status (record_down st.db now) false now⟩ := by
  simp [runLoopCycle, h]

lemma runLoopCycle_down_up {st : MonitorState} (h : st.was_up = some false) (now : ℤ) :
    runLoopCycle st true now =
      ⟨some true, some now, some now, some true,
        log_status (record_up st.db now) true now⟩ := by
  simp [runLoopCycle, h]

lemma runLoop_cons (st : MonitorState) (r : Bool) (rest : List Bool) (t : ℤ) :
    runLoop st (r :: rest) t = runLoop (runLoopCycle st r t) rest (t + 1) := rfl

/-- The counting invariant of the monitor loop, by cases on the loop
state: previous result up with no open row; previous result down with
the open row of a recorded up→down transition; previous result down
with no open row (a down state entered straight from startup). -/
lemma runLoop_counts (rs : List Bool) :
    ∀ (st : MonitorState) (t : ℤ),
      (st.was_up = some true → openCount st.db.downtime = 0 →
        closedCount (runLoop st rs t).db.downtime
            = closedCount st.db.downtime + downUps (some true) rs ∧
          openCount (runLoop st rs t).db.downtime ≤ 1) ∧
      (st.was_up = some false → openCount st.db.downtime = 1 →
        closedCount (runLoop st rs t).db.downtime
            = closedCount st.db.downtime + downUps (some false) rs ∧
          openCount (runLoop st rs t).db.downtime ≤ 1) ∧
      (st.was_up = some false → openCount st.db.downtime = 0 →
        closedCount (runLoop st rs t).db.downtime
            + (if 0 < downUps (some false) rs then 1 else 0)
            = closedCount st.db.downtime + downUps (some false) rs ∧
          openCount (runLoop st rs t).db.downtime ≤ 1) := by
  induction rs with
  | nil =>
    intro st t
    refine ⟨fun _ ho => ⟨by simp [runLoop, downUps], by simp [runLoop]; omega⟩,
      fun _ ho => ⟨by simp [runLoop, downUps], by simp [runLoop]; omega⟩,
      fun _ ho => ⟨by simp [runLoop, downUps], by simp [runLoop]; omega⟩⟩
  | cons r rest ih =>
    intro st t
    refine ⟨?_, ?_, ?_⟩
    · -- previous up, no open row
      intro hw ho
      cases r with
      | true =>
        rw [runLoop_cons, runLoopCycle_same hw]
        have hB := (ih ⟨some true, some t, st.last_change, some true,
          log_status st.db true t⟩ (t + 1)).1 rfl (by simpa using ho)
        simpa [downUps] using hB
      | false =>
        rw [runLoop_cons, runLoopCycle_up_down hw]
        have hD := (ih ⟨some false, some t, some t, some false,
          log_status (record_down st.db t) false t⟩ (t + 1)).2.1 rfl
          (by simp [record_down_openCount, ho])
        simpa [downUps, record_down_closedCount] using hD
    · -- previous down, one open row
      intro hw ho
      cases r with
      | true =>
        rw [runLoop_cons, runLoopCycle_down_up hw]
        obtain ⟨hop, hcl⟩ := record_up_counts t ho
        have hB := (ih ⟨some true, some t, some t, some true,
          log_status (record_up st.db t) true t⟩ (t + 1)).1 rfl (by simpa using hop)
        rw [show (log_status (record_up st.db t) true t).downtime
            = (record_up st.db t).downtime from rfl] at hB
        refine ⟨?_, hB.2⟩
        rw [hB.1, hcl]
        simp [downUps]
        omega
      | false =>
        rw [runLoop_cons, runLoopCycle_same hw]
        have hD := (ih ⟨some false, some t, st.last_change, some false,
          log_status st.db false t⟩ (t + 1)).2.1 rfl (by simpa using ho)
        simpa [downUps] using hD
    · -- previous down, no open row
      intro hw ho
      cases r with
      | true =>
        rw [runLoop_cons, runLoopCycle_down_up hw]
        rw [record_up_noop t ho]
        have hB := (ih ⟨some true, some t, some t, some true,
          log_status st.db true t⟩ (t + 1)).1 rfl (by simpa using ho)
        refine ⟨?_, hB.2⟩
        rw [show (log_status st.db true t).downtime = st.db.downtime from rfl] at hB
        rw [hB.1]
        simp [downUps]
        omega
      | false =>
        rw [runLoop_cons, runLoopCycle_same hw]
        have hC := (ih ⟨some false, some t, st.last_change, some false,
          log_status st.db false t⟩ (t + 1)).2.2 rfl (by simpa using ho)
        simpa [downUps] using hC

/-- The loop's counting behaviour from startup: at most one open row,
and the closed rows match the observed down→up transitions, short by
one exactly when the first observed state was down (that down state
opened no row, so the first down→up closes nothing). -/
lemma runMonitor_counts (rs : List Bool) :
    closedCount (runMonitor rs).db.downtime
        + (if rs.head? = some false ∧ 0 < downUps none rs then 1 else 0)
      = downUps none rs ∧
    openCount (runMonitor rs).db.downtime ≤ 1 := by
  cases rs with
  | nil => simp [runMonitor, runLoop, initialState, DB.empty, closedCount, openCount, downUps]
  | cons r rest =>
    rw [runMonitor, runLoop_cons, runLoopCycle_initial rfl]
    cases r with
    | true =>
      have hB := (runLoop_counts rest ⟨some true, some 0, initialState.last_change,
        some true, log_status initialState.db true 0⟩ (0 + 1)).1 rfl
        (by simp [initialState, DB.empty, openCount])
      refine ⟨?_, hB.2⟩
      rw [show closedCount (log_status initialState.db true 0).downtime = 0 by
        simp [initialState, DB.empty, closedCount]] at hB
      simp only [hB.1, List.head?_cons, downUps]
      simp
    | false =>
      have hC := (runLoop_counts rest ⟨some false, some 0, initialState.last_change,
        some false, log_status initialState.db false 0⟩ (0 + 1)).2.2 rfl
        (by simp [initialState, DB.empty, openCount])
      refine ⟨?_, hC.2⟩
      rw [show closedCount (log_status initialState.db false 0).downtime = 0 by
        simp [initialState, DB.empty, closedCount]] at hC
      simp only [List.head?_cons, downUps]
      simp only [zero_add] at hC
      simpa using hC.1

/-! ## Helper lemmas about the resolver -/

lemma is_internet_up_eq_true {probe : String → Bool} {ts : List String} :
    is_internet_up probe ts = true ↔ ∃ x ∈ ts, probe x = true := by
  induction ts with
  | nil => simp [is_internet_up]
  | cons t rest ih =>
    by_cases hp : probe t
    · simp [is_internet_up, hp]
    · simp only [Bool.not_eq_true] at hp
      simp [is_internet_up, hp, ih]

lemma resolver_shortCircuit {probe : String → Bool} :
    ∀ (l1 : List String) (t : String) (l2 : List String),
      (∀ x ∈ l1, probe x = false) → probe t = true →
      is_internet_up probe (l1 ++ t :: l2) = true ∧
        probedTargets probe (l1 ++ t :: l2) = l1 ++ [t] := by
  intro l1
  induction l1 with
  | nil =>
    intro t l2 _ hp
    simp [is_internet_up, probedTargets, hp]
  | cons a rest ih =>
    intro t l2 hfail hp
    have ha : probe a = false := hfail a (by simp)
    have hrec := ih t l2 (fun x hx => hfail x (by simp [hx])) hp
    simp [is_internet_up, probedTargets, ha, hrec.1, hrec.2]

lemma resolver_allFail {probe : String → Bool} :
    ∀ {ts : List String}, (∀ x ∈ ts, probe x = false) →
      is_internet_up probe ts = false ∧ probedTargets probe ts = ts := by
  intro ts
  induction ts with
  | nil => intro _; simp [is_internet_up, probedTargets]
  | cons a rest ih =>
    intro hfail
    have ha : probe a = false := hfail a (by simp)
    have hrec := ih (fun x hx => hfail x (by simp [hx]))
    simp [is_internet_up, probedTargets, ha, hrec.1, hrec.2]

/-! ## A sorted list headed by its strict maximum -/

lemma head?_of_sorted_strict_max {l : List DowntimeRow} {m : DowntimeRow}
    (hs : List.Sorted startedDesc l) (hm : m ∈ l)
    (hmax : ∀ y ∈ l, y ≠ m → y.started_at < m.started_at) :
    l.head? = some m := by
  cases l with
  | nil => exact absurd hm (List.not_mem_nil m)
  | cons h tl =>
    by_cases hhm : h = m
    · simp [hhm]
    · exfalso
      have hmtl : m ∈ tl := by
        rcases List.mem_cons.mp hm with he | htl
        · exact absurd he.symm hhm
        · exact htl
      have h1 : m.started_at ≤ h.started_at :=
        (List.sorted_cons.mp hs).1 m hmtl
      have h2 : h.started_at < m.started_at :=
        hmax h (List.mem_cons_self h tl) hhm
      exact absurd h1 (not_le_of_lt h2)

/-! ## The claims -/

/-- Claim C1, as stated, is false on the code: processing the probe
result sequence `[down, up]` from an empty downtime table yields one
observed down→up transition (`record_up` is called and `last_change`
set) but zero downtime rows with non-null `ended_at`, because the
initial down state — entered from the unknown startup state — never
opened a row, so `record_up` found nothing to close. -/
theorem C1_counterexample :
    downUps none [false, true] = 1 ∧
    closedCount (runMonitor [false, true]).db.downtime = 0 ∧
    closedCount (runMonitor [false, true]).db.downtime ≠ downUps none [false, true] := by
  refine ⟨rfl, ?_, ?_⟩ <;> decide

/-- Claim C1 (amended): for every finite sequence of probe results
processed by the monitor loop from an empty downtime table, at every
point at most one downtime row has `ended_at = null`, and the final
number of rows with non-null `ended_at` equals the number of down→up
transitions observed — except that when the first probe result is down
and a down→up transition occurs, the first such transition closes no
row (the initial down state opened none), so the count is one less.
The prefix `rs.take k` ranges over every intermediate point of the
processing. -/
theorem C1_downtime_row_invariant (rs : List Bool) (k : ℕ) :
    openCount (runMonitor (rs.take k)).db.downtime ≤ 1 ∧
    closedCount (runMonitor rs).db.downtime
        + (if rs.head? = some false ∧ 0 < downUps none rs then 1 else 0)
      = downUps none rs :=
  ⟨(runMonitor_counts (rs.take k)).2, (runMonitor_counts rs).1⟩

/-- Claim C2: one cycle of the monitor loop implements exactly the
spec's transition table. Unconditionally it sets `up`, `last_check` and
`was_up` to this cycle's values; from the unknown state it only sets
status (no downtime write, `last_change` untouched); on an unchanged
result it only refreshes status; on up→down it sets `last_change` and
calls `record_down`; on down→up it sets `last_change` and calls
`record_up`; and in every case it appends this cycle's `log_status`
sample. -/
theorem C2_transition_table (st : MonitorState) (r : Bool) (now : ℤ) :
    (runLoopCycle st r now).status_up = some r ∧
    (runLoopCycle st r now).last_check = some now ∧
    (runLoopCycle st r now).was_up = some r ∧
    (st.was_up = none →
      (runLoopCycle st r now).last_change = st.last_change ∧
      (runLoopCycle st r now).db = log_status st.db r now) ∧
    (st.was_up = some r →
      (runLoopCycle st r now).last_change = st.last_change ∧
      (runLoopCycle st r now).db = log_status st.db r now) ∧
    (st.was_up = some true → r = false →
      (runLoopCycle st r now).last_change = some now ∧
      (runLoopCycle st r now).db = log_status (record_down st.db now) r now) ∧
    (st.was_up = some false → r = true →
      (runLoopCycle st r now).last_change = some now ∧
      (runLoopCycle st r now).db = log_status (record_up st.db now) r now) := by
  rcases hw : st.was_up with _ | w
  · rw [runLoopCycle_initial hw]
    simp [hw]
  · cases w <;> cases r
    · rw [runLoopCycle_same hw]; simp [hw]
    · rw [runLoopCycle_down_up hw]; simp [hw]
    · rw [runLoopCycle_up_down hw]; simp [hw]
    · rw [runLoopCycle_same hw]; simp [hw]

/-- A concrete instance of the transition table: a down→up cycle from a
state with one open downtime row sets `last_change` and closes the row
through `record_up` before logging the status sample. -/
theorem C2_transition_table_witness :
    (runLoopCycle ⟨some false, some 0, some 0, some false,
        ⟨[⟨1, 0, none, 0⟩], [], 2⟩⟩ true 1).db
      = log_status (record_up ⟨[⟨1, 0, none, 0⟩], [], 2⟩ 1) true 1 :=
  ((C2_transition_table ⟨some false, some 0, some 0, some false,
    ⟨[⟨1, 0, none, 0⟩], [], 2⟩⟩ true 1).2.2.2.2.2.2 rfl rfl).2

/-- Claim C3: the multi-target resolver probes targets in configured
order, short-circuits and returns `true` at the first target whose
probe succeeds — the targets after it are never probed — and returns
`false` iff every target's probe fails (then all targets were probed);
in particular `[A, B]` with A failing and B succeeding yields `true`,
and both failing yields `false`. -/
theorem C3_multi_target_resolver (probe : String → Bool) (ts l1 l2 : List String)
    (t : String) :
    (is_internet_up probe ts = true ↔ ∃ x ∈ ts, probe x = true) ∧
    (is_internet_up probe ts = false ↔ ∀ x ∈ ts, probe x = false) ∧
    (ts = l1 ++ t :: l2 → (∀ x ∈ l1, probe x = false) → probe t = true →
      is_internet_up probe ts = true ∧ probedTargets probe ts = l1 ++ [t]) ∧
    ((∀ x ∈ ts, probe x = false) → probedTargets probe ts = ts) ∧
    is_internet_up (fun s => s == "B") ["A", "B"] = true ∧
    is_internet_up (fun _ => false) ["A", "B"] = false := by
  refine ⟨is_internet_up_eq_true, ?_, ?_, ?_, by decide, by decide⟩
  · rw [← Bool.not_eq_true, is_internet_up_eq_true]
    simp
  · intro hts hfail hp
    exact hts ▸ resolver_shortCircuit l1 t l2 hfail hp
  · intro hfail
    exact (resolver_allFail hfail).2

/-- A concrete short-circuit run of the resolver: with targets
`["A", "B"]` where only B answers, the result is `true` and both A and
B were probed (B last); with a third target C after B, C is never
probed. -/
theorem C3_multi_target_resolver_witness :
    is_internet_up (fun s => s == "B") ["A", "B", "C"] = true ∧
    probedTargets (fun s => s == "B") ["A", "B", "C"] = ["A", "B"] :=
  (C3_multi_target_resolver (fun s => s == "B") ["A", "B", "C"] ["A"] ["C"]
    "B").2.2.1 rfl (by decide) (by decide)

/-- Claim C4: the probe never lets a failure escape as an exception —
a subprocess timeout, a spawn failure, any other raised exception, or a
non-zero exit code all yield `false` — and on Windows a completed ping
is `true` exactly when the exit code is zero *and* an echo-reply
marker `ttl=` occurs in the lowercased output, so a zero exit whose
output lacks an echo reply (e.g. "Destination net unreachable") is
`false`. -/
theorem C4_probe_failure_modes (isW : Bool) (rc : ℤ) (out err : String) :
    ping_host isW .timeoutExpired = false ∧
    ping_host isW .fileNotFound = false ∧
    ping_host isW .otherException = false ∧
    (rc ≠ 0 → ping_host isW (.completed rc out err) = false) ∧
    (ping_host true (.completed rc out err) = true ↔
      rc = 0 ∧ containsTTL (lowerChars (out ++ "\n" ++ err)) = true) ∧
    (containsTTL (lowerChars (out ++ "\n" ++ err)) = false →
      ping_host true (.completed 0 out err) = false) ∧
    ping_host true
      (.completed 0 "Reply from 192.168.1.1: Destination net unreachable." "") = false := by
  refine ⟨rfl, rfl, rfl, ?_, ?_, ?_, by decide⟩
  · intro hrc
    cases isW <;> simp [ping_host, hrc]
  · simp [ping_host]
  · intro httl
    simp [ping_host, httl]

/-- A concrete failing probe: a non-zero exit code on a non-Windows
platform yields `false`, not an exception. -/
theorem C4_probe_failure_modes_witness :
    ping_host false (.completed 1 "" "ping: unknown host example.invalid") = false :=
  (C4_probe_failure_modes false 1 "" "ping: unknown host example.invalid").2.2.2.1
    (by decide)

/-- Claim C5: `get_uptime_stats` aggregates only the `status_log`
samples of the last 24 hours; with `n > 0` in-window samples of which
`up_count` are up it returns sample count `n`, uptime percentage
`up_count / n * 100` rounded to two decimal places, and approximate
downtime `(n - up_count) * poll_interval` seconds; with no in-window
samples it returns `{uptime_pct: null, samples: 0, downtime_seconds:
null}`; and 10 in-window samples, 7 up and 3 down, at poll interval 10
yield `{uptime_pct: 70.00, samples: 10, downtime_seconds: 30}`. -/
theorem C5_uptime_stats (db : DB) (now : ℤ) (interval : ℤ) :
    (db.status_log.filter (fun s => now - 24 * 3600 ≤ s.atTime) = [] →
      get_uptime_stats db now interval = ⟨none, 0, none⟩) ∧
    (∀ rows, rows = db.status_log.filter (fun s => now - 24 * 3600 ≤ s.atTime) →
      rows ≠ [] →
      get_uptime_stats db now interval =
        ⟨some (round2 (((rows.filter (fun s => s.up)).length : ℚ)
            / (rows.length : ℚ) * 100)),
          rows.length,
          some (((rows.length : ℤ) - ((rows.filter (fun s => s.up)).length : ℤ))
            * interval)⟩) ∧
    get_uptime_stats ⟨[], exampleStatusLog, 1⟩ 100000 10
      = ⟨some 70, 10, some 30⟩ := by
  refine ⟨?_, ?_, ?_⟩
  · intro h
    simp only [get_uptime_stats]
    rw [h]
    rfl
  · intro rows hrows hne
    simp only [get_uptime_stats]
    rw [← hrows]
    rw [if_neg (by simpa [List.isEmpty_iff] using hne)]
  · have hf : exampleStatusLog.filter (fun s => (100000 : ℤ) - 24 * 3600 ≤ s.atTime)
        = exampleStatusLog := by decide
    have hup : (exampleStatusLog.filter (fun s => s.up)).length = 7 := by decide
    have hlen : exampleStatusLog.length = 10 := by decide
    have hne : exampleStatusLog.isEmpty = false := by decide
    simp only [get_uptime_stats, hf, hup, hlen, hne]
    norm_num [round2, roundHalfEven]

/-- A concrete empty-window call: the only sample is older than 24
hours, so every statistics field is the "no data" value. -/
theorem C5_uptime_stats_witness :
    get_uptime_stats ⟨[], [⟨0, true⟩], 1⟩ 100000 10 = ⟨none, 0, none⟩ :=
  (C5_uptime_stats ⟨[], [⟨0, true⟩], 1⟩ 100000 10).1 (by decide)

/-- Claim C6: a runtime configuration update whose resulting ping
timeout would exceed the resulting poll interval is rejected with the
descriptive error `"ping_timeout cannot be greater than
poll_interval."` and commits nothing — the previously committed
targets, interval and timeout stay in effect (any update error leaves
them unchanged); in particular with committed interval 10, a payload
carrying only `ping_timeout = 15` fails against the current interval
and changes nothing. -/
theorem C6_update_rejects_timeout_above_interval (st : ConfigState) (p : Payload)
    (n : NormalizedUpdate) :
    (_validate_update p = .ok n →
      n.PING_TIMEOUT.getD st.PING_TIMEOUT > n.POLL_INTERVAL.getD st.POLL_INTERVAL →
      update_runtime_config st p
          = .error "ping_timeout cannot be greater than poll_interval." ∧
        applyUpdate st p = st) ∧
    (∀ e, update_runtime_config st p = .error e → applyUpdate st p = st) ∧
    update_runtime_config ⟨["8.8.8.8", "1.1.1.1"], 10, 5⟩ { ping_timeout := some 15 }
        = .error "ping_timeout cannot be greater than poll_interval." ∧
    applyUpdate ⟨["8.8.8.8", "1.1.1.1"], 10, 5⟩ { ping_timeout := some 15 }
      = ⟨["8.8.8.8", "1.1.1.1"], 10, 5⟩ := by
  refine ⟨?_, ?_, by decide, by decide⟩
  · intro hv hgt
    have hupd : update_runtime_config st p
        = .error "ping_timeout cannot be greater than poll_interval." := by
      unfold update_runtime_config
      rw [hv]
      simp only [Bind.bind, Except.bind]
      rw [if_pos hgt]
    exact ⟨hupd, by unfold applyUpdate; rw [hupd]⟩
  · intro e he
    unfold applyUpdate
    rw [he]

/-- A concrete rejected update: committed interval 10 and timeout 5,
payload `ping_timeout = 15` with no interval — validation against the
current interval fails and the committed state is untouched. -/
theorem C6_update_rejects_timeout_above_interval_witness :
    update_runtime_config ⟨["8.8.8.8"], 10, 5⟩ { ping_timeout := some 15 }
        = .error "ping_timeout cannot be greater than poll_interval." ∧
      applyUpdate ⟨["8.8.8.8"], 10, 5⟩ { ping_timeout := some 15 }
        = ⟨["8.8.8.8"], 10, 5⟩ :=
  (C6_update_rejects_timeout_above_interval ⟨["8.8.8.8"], 10, 5⟩
    ({ ping_timeout := some 15 }) (⟨none, none, some 15⟩ : NormalizedUpdate)).1
    (by decide) (by decide)

/-- Claim C7: `record_up` with no open downtime row leaves the database
exactly as it was (no row created or modified); with at least one open
row it updates the open row of maximal `started_at`, setting its
`ended_at`, and changes nothing else — rows with a different id map to
themselves, and the status log and id counter are untouched. -/
theorem C7_record_up_idempotent (db : DB) (now : ℤ) :
    (openCount db.downtime = 0 → record_up db now = db) ∧
    (0 < openCount db.downtime →
      ∃ r, r ∈ db.downtime ∧ r.ended_at = none ∧
        (∀ x ∈ db.downtime, x.ended_at = none → x.started_at ≤ r.started_at) ∧
        record_up db now = { db with downtime := (db.downtime.map
          (fun x => if x.id = r.id then { x with ended_at := some now } else x)) }) := by
  refine ⟨fun h => record_up_noop now h, fun h => ?_⟩
  obtain ⟨r, hpick, hmem, hopen, hmax⟩ := pickOpen_spec h
  refine ⟨r, hmem, hopen, hmax, ?_⟩
  unfold record_up
  rw [hpick]

/-- A concrete no-op: `record_up` on a database whose only downtime row
is already closed returns the database unchanged. -/
theorem C7_record_up_idempotent_witness :
    record_up ⟨[⟨1, 0, some 2, 0⟩], [], 2⟩ 5 = ⟨[⟨1, 0, some 2, 0⟩], [], 2⟩ :=
  (C7_record_up_idempotent ⟨[⟨1, 0, some 2, 0⟩], [], 2⟩ 5).1 (by decide)

lemma take_one_of_head_eq {l : List DowntimeRow} {m : DowntimeRow}
    (h : l.head? = some m) : l.take 1 = [m] := by
  cases l with
  | nil => simp at h
  | cons a tl =>
    simp only [List.head?_cons, Option.some.injEq] at h
    simp [h]

/-- Claim C8: `get_recent_downtimes` returns only closed intervals,
ordered newest-first by `started_at`, with at most `limit` rows; and a
downtime written by `record_down` at `t1` then closed by `record_up`
at `t2` — on a database with no open row and all earlier starts — reads
back via `get_recent_downtimes` with limit 1 as exactly the written
interval, `started_at = t1` and `ended_at = t2`. -/
theorem C8_recent_downtimes_round_trip (db : DB) (limit : ℕ) (t1 t2 : ℤ) :
    (∀ x ∈ get_recent_downtimes db limit, x.ended_at ≠ none) ∧
    List.Sorted startedDesc (get_recent_downtimes db limit) ∧
    (get_recent_downtimes db limit).length ≤ limit ∧
    ((∀ x ∈ db.downtime, x.ended_at ≠ none) →
      (∀ x ∈ db.downtime, x.started_at < t1) →
      get_recent_downtimes (record_up (record_down db t1) t2) 1
        = [⟨db.next_id, t1, some t2, t1⟩]) := by
  refine ⟨?_, ?_, ?_, ?_⟩
  · intro x hx
    have hx1 : x ∈ List.insertionSort startedDesc
        (db.downtime.filter (fun r => r.ended_at.isSome)) :=
      List.mem_of_mem_take hx
    have hx2 := (List.mem_insertionSort startedDesc).mp hx1
    exact Option.ne_none_iff_isSome.mpr (List.mem_filter.mp hx2).2
  · exact List.Pairwise.sublist (List.take_sublist _ _)
      (List.sorted_insertionSort startedDesc _)
  · exact List.length_take_le _ _
  · intro hclosed hlt
    have h0 : db.downtime.filter (fun r => r.ended_at.isNone) = [] := by
      rw [List.filter_eq_nil_iff]
      intro a ha
      simpa [Option.isNone_iff_eq_none] using hclosed a ha
    have hpick : pickOpen (record_down db t1).downtime
        = some ⟨db.next_id, t1, none, t1⟩ := by
      unfold pickOpen record_down
      rw [List.filter_append, h0]
      rfl
    have hup : (record_up (record_down db t1) t2).downtime
        = db.downtime.map
            (fun x => if x.id = db.next_id then { x with ended_at := some t2 } else x)
          ++ [⟨db.next_id, t1, some t2, t1⟩] := by
      simp only [record_up, hpick]
      simp [record_down, List.map_append]
    have hallSome : ∀ y ∈ db.downtime.map
          (fun x => if x.id = db.next_id then { x with ended_at := some t2 } else x)
        ++ [⟨db.next_id, t1, some t2, t1⟩], y.ended_at.isSome := by
      intro y hy
      rcases List.mem_append.mp hy with hmap | hsing
      · obtain ⟨x, hx, hfx⟩ := List.mem_map.mp hmap
        rw [← hfx]
        by_cases hid : x.id = db.next_id
        · simp [hid]
        · simp only [hid, if_neg, not_false_iff]
          exact Option.isSome_iff_ne_none.mpr (hclosed x hx)
      · simp only [List.mem_singleton] at hsing
        simp [hsing]
    have hmem : (⟨db.next_id, t1, some t2, t1⟩ : DowntimeRow)
        ∈ List.insertionSort startedDesc
          (db.downtime.map
              (fun x => if x.id = db.next_id then { x with ended_at := some t2 } else x)
            ++ [⟨db.next_id, t1, some t2, t1⟩]) :=
      (List.mem_insertionSort startedDesc).mpr (by simp)
    have hstrict : ∀ y ∈ List.insertionSort startedDesc
          (db.downtime.map
              (fun x => if x.id = db.next_id then { x with ended_at := some t2 } else x)
            ++ [⟨db.next_id, t1, some t2, t1⟩]),
        y ≠ ⟨db.next_id, t1, some t2, t1⟩ →
        y.started_at < (⟨db.next_id, t1, some t2, t1⟩ : DowntimeRow).started_at := by
      intro y hy hne
      have hyL := (List.mem_insertionSort startedDesc).mp hy
      rcases List.mem_append.mp hyL with hmap | hsing
      · obtain ⟨x, hx, hfx⟩ := List.mem_map.mp hmap
        have hys : y.started_at = x.started_at := by
          rw [← hfx]
          by_cases hid : x.id = db.next_id <;> simp [hid]
        rw [hys]
        exact hlt x hx
      · exact absurd (List.mem_singleton.mp hsing) hne
    have hhead := head?_of_sorted_strict_max
      (List.sorted_insertionSort startedDesc _) hmem hstrict
    unfold get_recent_downtimes
    rw [hup, List.filter_eq_self.mpr hallSome, take_one_of_head_eq hhead]

/-- A concrete round trip: one downtime opened at time 5 and closed at
time 7 on an empty database reads back exactly as written. -/
theorem C8_recent_downtimes_round_trip_witness :
    get_recent_downtimes (record_up (record_down DB.empty 5) 7) 1
      = [⟨1, 5, some 7, 5⟩] :=
  (C8_recent_downtimes_round_trip DB.empty 1 5 7).2.2.2
    (by intro x hx; simp [DB.empty] at hx) (by intro x hx; simp [DB.empty] at hx)

/-- Claim C9 (implicit): `PING_TIMEOUT ≤ POLL_INTERVAL` holds after
configuration initialisation and is preserved by every successful
`update_runtime_config`; at initialisation a stored or environment
timeout exceeding the poll interval is not rejected but silently
clamped down to the poll interval, unlike the update path, which
raises an error for the same condition. -/
theorem C9_timeout_le_interval_invariant (rawI rawT i t : ℤ) (st st' : ConfigState)
    (p : Payload) :
    (initIntervalTimeout rawI rawT = .ok (i, t) → t ≤ i) ∧
    (update_runtime_config st p = .ok st' → st'.PING_TIMEOUT ≤ st'.POLL_INTERVAL) ∧
    (1 ≤ rawI → rawI ≤ 3600 → 1 ≤ rawT → rawT ≤ 60 → rawI < rawT →
      initIntervalTimeout rawI rawT = .ok (rawI, rawI)) ∧
    initIntervalTimeout 10 15 = .ok (10, 10) ∧
    update_runtime_config ⟨["8.8.8.8"], 10, 10⟩ ({ ping_timeout := some 15 })
      = .error "ping_timeout cannot be greater than poll_interval." := by
  refine ⟨?_, ?_, ?_, by decide, by decide⟩
  · intro h
    simp only [initIntervalTimeout, _coerce_positive_int, Bind.bind, Except.bind,
      pure] at h
    split_ifs at h with h1 h2 h3 h4
    simp only [Except.pure, Except.ok.injEq, Prod.mk.injEq] at h
    obtain ⟨hi, ht⟩ := h
    subst hi
    subst ht
    split_ifs with h5
    · exact min_le_right _ _
    · omega
  · intro h
    unfold update_runtime_config at h
    cases hv : _validate_update p with
    | error e =>
      rw [hv] at h
      exact Except.noConfusion (show Except.error e = Except.ok st' from h)
    | ok n =>
      rw [hv] at h
      simp only [Bind.bind, Except.bind] at h
      split_ifs at h with hgt
      have h2 : Except.ok (⟨n.PING_TARGETS.getD st.PING_TARGETS,
          n.POLL_INTERVAL.getD st.POLL_INTERVAL,
          n.PING_TIMEOUT.getD st.PING_TIMEOUT⟩ : ConfigState) = Except.ok st' := h
      injection h2 with h3
      rw [← h3]
      exact le_of_not_lt hgt
  · intro hI1 hI2 hT1 hT2 hIT
    have hI : _coerce_positive_int rawI "poll_interval" 1 (some 3600) = .ok rawI := by
      simp only [_coerce_positive_int]
      rw [if_neg (by omega), if_neg (by omega)]
    have hT : _coerce_positive_int rawT "ping_timeout" 1 (some 60) = .ok rawT := by
      simp only [_coerce_positive_int]
      rw [if_neg (by omega), if_neg (by omega)]
    simp only [initIntervalTimeout, hI, hT, Bind.bind, Except.bind]
    rw [if_pos (by omega), min_eq_right (le_of_lt hIT)]
    rfl

/-- A concrete initialisation: stored interval 10 with stored timeout
15 is accepted with the timeout clamped to 10, not rejected. -/
theorem C9_timeout_le_interval_invariant_witness :
    initIntervalTimeout 10 15 = .ok (10, 10) :=
  (C9_timeout_le_interval_invariant 10 15 0 0 ⟨[], 1, 1⟩ ⟨[], 1, 1⟩
    ({} : Payload)).2.2.1 (by decide) (by decide) (by decide) (by decide) (by decide)

/-- Claim C10 (implicit): `get_current_downtime` selects only the
columns `id`, `started_at` and `created_at`, so when an open interval
exists the returned record has exactly those three fields — the
would-be-null `ended_at` is absent, unlike the four-column rows of
`get_recent_downtimes` (the result type `OpenDowntimeView` has no
`ended_at` field) — and the selected row is the open row of maximal
`started_at`; with no open interval it returns `None`. -/
theorem C10_current_downtime_shape (db : DB) :
    (openCount db.downtime = 0 → get_current_downtime db = none) ∧
    (0 < openCount db.downtime →
      ∃ r, r ∈ db.downtime ∧ r.ended_at = none ∧
        (∀ x ∈ db.downtime, x.ended_at = none → x.started_at ≤ r.started_at) ∧
        get_current_downtime db = some ⟨r.id, r.started_at, r.created_at⟩) := by
  constructor
  · intro h
    unfold get_current_downtime
    rw [pickOpen_eq_none h]
    rfl
  · intro h
    obtain ⟨r, hpick, hmem, hopen, hmax⟩ := pickOpen_spec h
    refine ⟨r, hmem, hopen, hmax, ?_⟩
    unfold get_current_downtime
    rw [hpick]
    rfl

/-- Concrete calls: a database whose only row is closed yields `None`,
and one with a single open row yields the three-field view of that
row. -/
theorem C10_current_downtime_shape_witness :
    get_current_downtime ⟨[⟨1, 0, some 2, 0⟩], [], 2⟩ = none ∧
    (∃ r, r ∈ ([⟨7, 5, none, 5⟩] : List DowntimeRow) ∧ r.ended_at = none ∧
      (∀ x ∈ ([⟨7, 5, none, 5⟩] : List DowntimeRow),
        x.ended_at = none → x.started_at ≤ r.started_at) ∧
      get_current_downtime ⟨[⟨7, 5, none, 5⟩], [], 8⟩
        = some ⟨r.id, r.started_at, r.created_at⟩) :=
  ⟨(C10_current_downtime_shape ⟨[⟨1, 0, some 2, 0⟩], [], 2⟩).1 (by decide),
   (C10_current_downtime_shape ⟨[⟨7, 5, none, 5⟩], [], 8⟩).2 (by decide)⟩

end Heimdall
